import Mathlib

/-!
Verification of the serial-monitor core of `embedded-cereal-bowl`.

The monitor module (`src/embedded_cereal_bowl/monitor/monitor.py`) is not
shipped in this source snapshot; only its test suite
(`tests/test_monitor.py`) is.  Following the specification, every function
below is modelled from the spec's description of the component, and each
model is additionally pinned by the concrete behaviours asserted in
`tests/test_monitor.py` (which is part of the repository and therefore
authoritative wherever it reaches).
-/

namespace CerealBowl

/-- `p` starts the string `s` (Python's `str.startswith`), computed on the
underlying character lists so that it evaluates by kernel reduction. -/
def strStarts (p s : String) : Bool :=
  p.data.isPrefixOf s.data

/-- Drop the last `n` characters of a string (Python's `s[:-n]`), computed
on the underlying character list. -/
def strDropRight (s : String) (n : Nat) : String :=
  ⟨s.data.take (s.data.length - n)⟩

/-- Modelled from the spec: `get_serial_prefix` of the missing monitor
module.  PortResolver, section 4.1: on Windows-like hosts (`os.name = "nt"`)
there is no path prefix; on POSIX-like hosts the serial-device prefix is
`/dev/tty`.  Pinned by `test_get_serial_prefix`. -/
def get_serial_prefix (osName : String) : String :=
  if osName = "nt" then "" else "/dev/tty"

/-- Modelled from the spec: `get_serial_port_name` of the missing monitor
module.  PortResolver, section 4.1: an already rooted path is returned
unchanged; otherwise the platform serial-device prefix is prepended.
Pinned by `test_get_serial_port_name`, which additionally fixes that an
identifier already starting with `tty` receives only `/dev/`
(`get_serial_port_name("ttyUSB0") == "/dev/ttyUSB0"`): the trailing `tty`
of the platform serial-device prefix is dropped when the identifier
already carries it. -/
def get_serial_port_name (osName : String) (port : String) : String :=
  if strStarts "/" port then port
  else
    let p := get_serial_prefix osName
    if strStarts "tty" port then strDropRight p 3 ++ port
    else p ++ port

/-- Seconds with millisecond precision, printed from an epoch time held in
milliseconds: the integer part, a dot, and the three-digit remainder. -/
def formatEpochSeconds (nowMs : Nat) : String :=
  let frac := nowMs % 1000
  let fracStr :=
    if frac < 10 then "00" ++ toString frac
    else if frac < 100 then "0" ++ toString frac
    else toString frac
  toString (nowMs / 1000) ++ "." ++ fracStr

/-- Modelled from the spec: `add_time_to_line` of the missing monitor
module.  Timestamp formatter, sections 4.3 and 6: `epoch` renders epoch
seconds with millisecond precision, `ms` renders integer epoch
milliseconds, the date-time mode renders the local human-readable
date-time, and any other mode (including `None`) yields the empty string
without failing.  The current instant is passed as `nowMs` (epoch
milliseconds) and `localIso` (the local date-time rendering, an external
collaborator's output).  Pinned by `test_add_time_to_line`, which fixes
the date-time mode keyword as `"dt"` and `add_time_to_line("invalid") = ""`,
`add_time_to_line(None) = ""`. -/
def add_time_to_line (printTime : Option String) (nowMs : Nat)
    (localIso : String) : String :=
  match printTime with
  | none => ""
  | some m =>
    if m = "epoch" then "[" ++ formatEpochSeconds nowMs ++ "] "
    else if m = "ms" then "[" ++ toString nowMs ++ "] "
    else if m = "dt" then "[" ++ localIso ++ "] "
    else ""

/-- The ANSI escape character `\x1b`. -/
def ESC : Char := Char.ofNat 27

/-- A character allowed inside the parameter part of an ANSI colour escape
sequence (`ESC [ params m`): a digit or a semicolon. -/
def isParamChar (c : Char) : Bool :=
  c.isDigit || c = ';'

/-- Recognise an ANSI colour escape sequence `ESC [ params m` at the head
of a character list (the shape matched by `ASNI_ESCAPE_PATTERN`); return
the sequence and the remainder of the list. -/
def takeEscape : List Char → Option (List Char × List Char)
  | c₁ :: c₂ :: rest =>
    if c₁ = ESC then
      if c₂ = '[' then
        match rest.dropWhile isParamChar with
        | 'm' :: tail =>
          some (c₁ :: c₂ :: (rest.takeWhile isParamChar ++ ['m']), tail)
        | _ => none
      else none
    else none
  | _ => none

/-- Left-to-right scan of a line recording the last ANSI escape sequence
that starts before position `pos` (HighlightEngine, section 4.5: the
position-indexed "currently active escape code" state). -/
def lastEscAux (pos : Nat) : List Char → Nat → Option (List Char) →
    Option (List Char)
  | [], _, acc => acc
  | c :: rest, i, acc =>
    match takeEscape (c :: rest) with
    | some (esc, _) => lastEscAux pos rest (i + 1) (if i < pos then some esc else acc)
    | none => lastEscAux pos rest (i + 1) acc

/-- The ANSI escape code active immediately before position `pos` of the
line, if any. -/
def lastEscapeBefore (line : List Char) (pos : Nat) : Option (List Char) :=
  lastEscAux pos line 0 none

/-- The fixed highlight style of the monitor: green background, black
foreground (`colour_str(...).back_green().black()`). -/
def HIGHLIGHT_STYLE : List Char :=
  ("\x1b[42m" ++ "\x1b[30m").data

/-- The plain ANSI reset code. -/
def ANSI_RESET : List Char :=
  "\x1b[0m".data

/-- Modelled from the spec: `create_replacement_lambda` of the missing
monitor module.  HighlightEngine, section 4.5: the replacement for a match
wraps the matched text in the highlight style, then re-emits whatever
escape code was active at the match's start position immediately after the
highlight closes; if no escape code was active before the match, a plain
reset is emitted instead.  Pinned by `test_create_replacement_lambda` and
`test_create_replacement_lambda_no_reset` (the latter fixes that the
active code `\x1b[31m` of `"\x1b[31mred error"` reappears in the
replacement of the match at position 9). -/
def create_replacement_lambda (line : List Char) (matchStart : Nat)
    (matchText : List Char) : List Char :=
  HIGHLIGHT_STYLE ++ matchText ++ ((lastEscapeBefore line matchStart).getD ANSI_RESET)

/-- A well-formed ANSI colour escape sequence built from its parameter
characters: `ESC [ params m`. -/
def mkEscape (params : List Char) : List Char :=
  ESC :: '[' :: (params ++ ['m'])

/-- Strip every trailing newline character from a string (the writer path
strips the trailing newline of the operator's input line before sending). -/
def stripTrailingNewline (s : String) : String :=
  ⟨(s.data.reverse.dropWhile (· = '\n')).reverse⟩

/-- Observable outcome of one call of the writer path's send routine:
reported success, the write requests issued to the serial handle, the
lines appended to the log sink, and the console messages. -/
structure SendOutcome where
  success : Bool
  writes : List String
  logWrites : List String
  console : List String
deriving DecidableEq

/-- Modelled from the spec: `send_serial_data` of the missing monitor
module.  WriterLoop, section 4.4: strip the trailing newline, write the
line plus a newline terminator to the serial handle, optionally timestamp
and append to the log sink, report success or failure; a write failure is
reported with a console message and does not raise.  The serial handle's
write outcome is abstracted as `writeErr` (`none` = accepted, `some msg` =
`TransportError msg`).  Pinned by `test_send_serial_data_basic` (exactly
one write of `"test\n"` for input `"test"`, one log append, returns true)
and `test_send_serial_data_error` (returns false, prints `Send error`). -/
def send_serial_data (writeErr : Option String) (dataLine : String)
    (printTime : Option String) (nowMs : Nat) (localIso : String)
    (hasLog : Bool) : SendOutcome :=
  let line := stripTrailingNewline dataLine
  let payload := line ++ "\n"
  match writeErr with
  | some msg =>
    { success := false, writes := [payload], logWrites := [],
      console := ["Send error: " ++ msg] }
  | none =>
    { success := true, writes := [payload],
      logWrites :=
        if hasLog then [add_time_to_line printTime nowMs localIso ++ line ++ "\n"]
        else [],
      console := [] }

/-- One result of the serial handle's blocking line read: a chunk of bytes
(possibly empty) or a transport-level read error. -/
inductive ReadEvent where
  | data (s : String)
  | readError (msg : String)
deriving DecidableEq

/-- Observable outcome of the reader loop over a finite read script: the
lines printed to the console, the lines appended to the log sink, and
whether the loop ended by reporting the connection lost. -/
structure LoopOutcome where
  printed : List String
  logged : List String
  lost : Bool
deriving DecidableEq

/-- Modelled from the spec: `serial_loop` of the missing monitor module.
ReaderLoop, section 4.3: each iteration reads one line; an empty read is a
no-op (idle port), a non-empty line is decoded, timestamped, printed to
the console and appended to the log sink when one is configured; a read
error is reported upward and ends the loop (but not the process) so the
supervisor can reconnect.  Pinned by `test_serial_loop_basic` (an empty
read is neither printed nor logged nor counted) and
`test_serial_loop_with_logging`. -/
def serial_loop (printTime : Option String) (nowMs : Nat) (localIso : String)
    (hasLog : Bool) : List ReadEvent → LoopOutcome
  | [] => ⟨[], [], false⟩
  | .data s :: evs =>
    if s = "" then serial_loop printTime nowMs localIso hasLog evs
    else
      let r := serial_loop printTime nowMs localIso hasLog evs
      let out := add_time_to_line printTime nowMs localIso ++ s
      ⟨out :: r.printed, (if hasLog then [out] else []) ++ r.logged, r.lost⟩
  | .readError _ :: _ => ⟨[], [], true⟩

/-- One observation of the writer loop's input poll: a ready line, a poll
timeout, or an exception raised while reading operator input. -/
inductive InputEvent where
  | ready (s : String)
  | notReady
  | inputError (msg : String)
deriving DecidableEq

/-- Observable outcome of the writer loop over a finite input script: the
lines forwarded to the send routine and the console messages. -/
structure InputOutcome where
  sent : List String
  console : List String
deriving DecidableEq

/-- Modelled from the spec: body of `handle_user_input` of the missing
monitor module, processing the input script once the shutdown flag has
been found unset.  A ready line is forwarded to `send_serial_data`; an
exception while reading input is reported to the console as
`Input error: ...` and the loop returns.  `test_handle_user_input_errors`
pins the exit: it drives the loop with a persistently raising input source
and an unset stop event, and the call returns — so the loop terminates
after reporting rather than polling again. -/
def handle_user_input_go : List InputEvent → InputOutcome
  | [] => ⟨[], []⟩
  | .notReady :: evs => handle_user_input_go evs
  | .ready s :: evs =>
    let r := handle_user_input_go evs
    ⟨s :: r.sent, r.console⟩
  | .inputError msg :: _ => ⟨[], ["Input error: " ++ msg]⟩

/-- Modelled from the spec: `handle_user_input` of the missing monitor
module (WriterLoop, section 4.4), over a finite script of poll
observations.  When the shutdown flag is already set the loop returns at
once without reading anything. -/
def handle_user_input (stopSet : Bool) (evs : List InputEvent) : InputOutcome :=
  if stopSet then ⟨[], []⟩ else handle_user_input_go evs

/-- Modelled from the spec: `wait_with_spinner` of the missing monitor
module — one bounded-rate retry wait that advances the spinner counter.
Pinned by `test_wait_with_spinner`: `wait_with_spinner("port", 0) = 1`,
`wait_with_spinner("port", 3) = 4`. -/
def wait_with_spinner (port : String) (count : Nat) : Nat :=
  count + 1

/-- How an open session ends: operator interrupt, an unexpected fatal
error, or a transport-level failure demoting the session to Lost. -/
inductive SessionEnd where
  | interrupt
  | fatal (msg : String)
  | transportLost
deriving DecidableEq

/-- One connection attempt as seen by the supervisor: the device opened
and the session ran to some end, the open failed (retry with spinner), or
a keyboard interrupt arrived while waiting or retrying to open. -/
inductive Attempt where
  | opened (e : SessionEnd)
  | openFail
  | interrupted
deriving DecidableEq

/-- Observable outcome of the connection supervisor over a finite script
of attempts: the process exit code (`none` while still running) and the
number of spinner waits performed. -/
structure RunOutcome where
  exitCode : Option Nat
  spins : Nat
deriving DecidableEq

/-- Modelled from the spec: `run_serial_printing` of the missing monitor
module.  ConnectionSupervisor, section 4.2: a failed open enters a
visible retry state (spinner) and tries again; a keyboard interrupt while
waiting or retrying terminates the process with exit code 0; an
unexpected failure during an active session terminates with a nonzero
exit code (1); a transport loss demotes the session and re-enters the
connect cycle.  Pinned by `test_run_serial_printing_keyboard_interrupt`
(exit code 0) and `test_run_serial_printing_exception` (one failure, one
spinner call). -/
def run_serial_printing (port : String) : List Attempt → Nat → RunOutcome
  | [], s => ⟨none, s⟩
  | .interrupted :: _, s => ⟨some 0, s⟩
  | .openFail :: rest, s => run_serial_printing port rest (wait_with_spinner port s)
  | .opened .interrupt :: _, s => ⟨some 0, s⟩
  | .opened (.fatal _) :: _, s => ⟨some 1, s⟩
  | .opened .transportLost :: rest, s => run_serial_printing port rest s

end CerealBowl

namespace CerealBowl

/-- A parameter character is never the escape character itself. -/
theorem isParamChar_ne_esc {c : Char} (h : isParamChar c = true) : c ≠ ESC := by
  intro hc
  subst hc
  exact absurd h (by decide)

/-- `takeEscape` fails on a list that does not start with `ESC`. -/
theorem takeEscape_not_esc {c : Char} (l : List Char) (h : c ≠ ESC) :
    takeEscape (c :: l) = none := by
  cases l with
  | nil => rfl
  | cons d t => simp [takeEscape, h]

/-- Splitting the parameter region: `takeWhile`/`dropWhile` stop exactly at
the terminating `m`. -/
theorem param_scan (params tail : List Char)
    (hp : ∀ c ∈ params, isParamChar c = true) :
    (params ++ 'm' :: tail).takeWhile isParamChar = params ∧
      (params ++ 'm' :: tail).dropWhile isParamChar = 'm' :: tail := by
  induction params with
  | nil =>
    simp [List.takeWhile, List.dropWhile, show isParamChar 'm' = false from by decide]
  | cons c cs ih =>
    have hc : isParamChar c = true := hp c (by simp)
    have ihr := ih (fun d hd => hp d (by simp [hd]))
    simp [List.takeWhile_cons, List.dropWhile_cons, hc, ihr.1, ihr.2]

/-- `takeEscape` recognises a well-formed escape sequence at the head of a
list and returns exactly it. -/
theorem takeEscape_mkEscape (params tail : List Char)
    (hp : ∀ c ∈ params, isParamChar c = true) :
    takeEscape (mkEscape params ++ tail) = some (mkEscape params, tail) := by
  have hsplit := param_scan params tail hp
  show takeEscape (ESC :: '[' :: ((params ++ ['m']) ++ tail)) = _
  rw [List.append_assoc, List.singleton_append]
  simp [takeEscape, hsplit.1, hsplit.2, mkEscape]

/-- Once the scan position has passed `pos`, the recorded escape no longer
changes. -/
theorem lastEscAux_of_ge (pos : Nat) :
    ∀ (l : List Char) (i : Nat) (acc : Option (List Char)), pos ≤ i →
      lastEscAux pos l i acc = acc := by
  intro l
  induction l with
  | nil => intro i acc _; rfl
  | cons c rest ih =>
    intro i acc h
    show (match takeEscape (c :: rest) with
      | some (esc, _) => lastEscAux pos rest (i + 1) (if i < pos then some esc else acc)
      | none => lastEscAux pos rest (i + 1) acc) = acc
    cases htake : takeEscape (c :: rest) with
    | none => exact ih (i + 1) acc (by omega)
    | some p =>
      obtain ⟨esc, tl⟩ := p
      show lastEscAux pos rest (i + 1) (if i < pos then some esc else acc) = acc
      rw [if_neg (by omega)]
      exact ih (i + 1) acc (by omega)

/-- Scanning a region free of the escape character neither records an
escape nor stops; only the position advances. -/
theorem lastEscAux_append_no_esc (pos : Nat) :
    ∀ (l₁ l₂ : List Char) (i : Nat) (acc : Option (List Char)),
      (∀ c ∈ l₁, c ≠ ESC) →
      lastEscAux pos (l₁ ++ l₂) i acc = lastEscAux pos l₂ (i + l₁.length) acc := by
  intro l₁
  induction l₁ with
  | nil => intro l₂ i acc _; simp
  | cons c cs ih =>
    intro l₂ i acc h
    have hc : c ≠ ESC := h c (by simp)
    show (match takeEscape (c :: (cs ++ l₂)) with
      | some (esc, _) => lastEscAux pos (cs ++ l₂) (i + 1) (if i < pos then some esc else acc)
      | none => lastEscAux pos (cs ++ l₂) (i + 1) acc) = _
    rw [takeEscape_not_esc (cs ++ l₂) hc]
    rw [ih l₂ (i + 1) acc (fun d hd => h d (by simp [hd]))]
    rw [show i + 1 + cs.length = i + (c :: cs).length by simp; omega]

/-- Scanning across a well-formed escape sequence that starts before `pos`
records exactly that sequence. -/
theorem lastEscAux_found (pos : Nat) (params tail : List Char) (i : Nat)
    (acc : Option (List Char)) (hp : ∀ c ∈ params, isParamChar c = true)
    (hi : i < pos) :
    lastEscAux pos (mkEscape params ++ tail) i acc
      = lastEscAux pos tail (i + (mkEscape params).length) (some (mkEscape params)) := by
  have htake : takeEscape (mkEscape params ++ tail) = some (mkEscape params, tail) :=
    takeEscape_mkEscape params tail hp
  show (match takeEscape (ESC :: '[' :: ((params ++ ['m']) ++ tail)) with
    | some (esc, _) =>
        lastEscAux pos ('[' :: ((params ++ ['m']) ++ tail)) (i + 1)
          (if i < pos then some esc else acc)
    | none => lastEscAux pos ('[' :: ((params ++ ['m']) ++ tail)) (i + 1) acc) = _
  rw [show (ESC :: '[' :: ((params ++ ['m']) ++ tail)) = mkEscape params ++ tail by
    simp [mkEscape]]
  rw [htake]
  show lastEscAux pos ('[' :: ((params ++ ['m']) ++ tail)) (i + 1)
      (if i < pos then some (mkEscape params) else acc)
    = lastEscAux pos tail (i + (mkEscape params).length) (some (mkEscape params))
  rw [if_pos hi]
  have hin : ∀ c ∈ '[' :: (params ++ ['m']), c ≠ ESC := by
    intro c hc
    rcases List.mem_cons.mp hc with h | h
    · subst h; decide
    · rcases List.mem_append.mp h with h | h
      · exact isParamChar_ne_esc (hp c h)
      · rcases List.mem_singleton.mp h with rfl; decide
  have hrw : ('[' : Char) :: ((params ++ ['m']) ++ tail)
      = ('[' :: (params ++ ['m'])) ++ tail := by simp
  rw [hrw, lastEscAux_append_no_esc pos ('[' :: (params ++ ['m'])) tail (i + 1) _ hin]
  rw [show i + 1 + ('[' :: (params ++ ['m'])).length = i + (mkEscape params).length by
    simp [mkEscape]; omega]

/-- The scan of a line of the shape
`pre ++ escape ++ mid ++ match ++ rest`, with `pre` and `mid` free of
escape characters, reports `escape` as the active code at the match's
start position. -/
theorem lastEscapeBefore_structured (pre params mid txt rest : List Char)
    (hpre : ∀ c ∈ pre, c ≠ ESC) (hp : ∀ c ∈ params, isParamChar c = true)
    (hmid : ∀ c ∈ mid, c ≠ ESC) :
    lastEscapeBefore (pre ++ mkEscape params ++ mid ++ txt ++ rest)
        (pre.length + (mkEscape params).length + mid.length)
      = some (mkEscape params) := by
  unfold lastEscapeBefore
  rw [show pre ++ mkEscape params ++ mid ++ txt ++ rest
      = pre ++ (mkEscape params ++ (mid ++ (txt ++ rest))) by simp]
  rw [lastEscAux_append_no_esc _ pre _ 0 none hpre]
  rw [lastEscAux_found _ params _ _ none hp (by simp [mkEscape]; omega)]
  rw [lastEscAux_append_no_esc _ mid _ _ _ hmid]
  exact lastEscAux_of_ge _ _ _ _ (by omega)

/-- If no escape character occurs before `pos`, the scan reports no active
code. -/
theorem lastEscapeBefore_none (l₁ l₂ : List Char) (pos : Nat)
    (h : ∀ c ∈ l₁, c ≠ ESC) (hpos : pos ≤ l₁.length) :
    lastEscapeBefore (l₁ ++ l₂) pos = none := by
  unfold lastEscapeBefore
  rw [lastEscAux_append_no_esc _ l₁ l₂ 0 none h]
  exact lastEscAux_of_ge _ _ _ _ (by omega)

/-- Stripping the trailing newline leaves a line that has none unchanged. -/
theorem stripTrailingNewline_of_no_newline (s : String)
    (h : s.data.getLast? ≠ some '\n') : stripTrailingNewline s = s := by
  have hdata : (s.data.reverse.dropWhile (· = '\n')).reverse = s.data := by
    cases hs : s.data.reverse with
    | nil =>
      have : s.data = [] := by
        have := congrArg List.reverse hs
        simpa using this
      simp [hs, this]
    | cons a as =>
      have hhead : s.data.getLast? = some a := by
        rw [← List.head?_reverse, hs]
        rfl
      have ha : ¬ (a = '\n') := by
        intro hcon
        exact h (by rw [hhead, hcon])
      rw [List.dropWhile_cons, if_neg (by simpa using ha)]
      rw [← hs, List.reverse_reverse]
  calc stripTrailingNewline s = ⟨s.data⟩ := by rw [stripTrailingNewline, hdata]
    _ = s := rfl

/-- C1: for a line in which an ANSI colour escape code is active
immediately before a highlight match (line = `pre ++ code ++ mid ++ match
++ rest` with no escape character in `pre` or `mid`), the replacement
produced by the highlight engine re-emits that same code immediately after
the highlighted match; and if no escape code was active before the match
(no escape character up to the match's start), a plain reset is emitted
after the highlight instead. -/
theorem create_replacement_restores_active_code :
    (∀ pre params mid txt rest : List Char,
      (∀ c ∈ pre, c ≠ ESC) → (∀ c ∈ params, isParamChar c = true) →
      (∀ c ∈ mid, c ≠ ESC) →
      create_replacement_lambda (pre ++ mkEscape params ++ mid ++ txt ++ rest)
          (pre.length + (mkEscape params).length + mid.length) txt
        = HIGHLIGHT_STYLE ++ txt ++ mkEscape params) ∧
    (∀ l₁ l₂ : List Char, ∀ pos : Nat, ∀ txt : List Char,
      (∀ c ∈ l₁, c ≠ ESC) → pos ≤ l₁.length →
      create_replacement_lambda (l₁ ++ l₂) pos txt
        = HIGHLIGHT_STYLE ++ txt ++ ANSI_RESET) := by
  constructor
  · intro pre params mid txt rest hpre hp hmid
    unfold create_replacement_lambda
    rw [lastEscapeBefore_structured pre params mid txt rest hpre hp hmid]
    rfl
  · intro l₁ l₂ pos txt h hpos
    unfold create_replacement_lambda
    rw [lastEscapeBefore_none l₁ l₂ pos h hpos]
    rfl

/-- Witness for C1 at the test lines `"\x1b[31mred error"` (match `error`
at position 9, active code `\x1b[31m` restored) and a plain line with no
escape (reset emitted). -/
theorem create_replacement_restores_active_code_witness :
    create_replacement_lambda
        (([] : List Char) ++ mkEscape ['3', '1'] ++ "red ".data ++ "error".data ++ [])
        (([] : List Char).length + (mkEscape ['3', '1']).length + "red ".data.length)
        "error".data
      = HIGHLIGHT_STYLE ++ "error".data ++ mkEscape ['3', '1'] ∧
    create_replacement_lambda ("normal text ".data ++ "error".data) 12 "error".data
      = HIGHLIGHT_STYLE ++ "error".data ++ ANSI_RESET :=
  ⟨create_replacement_restores_active_code.1 [] ['3', '1'] "red ".data "error".data []
      (by simp) (by decide) (by decide),
    create_replacement_restores_active_code.2 "normal text ".data "error".data 12
      "error".data (by decide) (by decide)⟩

/-- The structured line of the C1 witness is literally the test line
`"\x1b[31mred error"`, and the replacement there carries the original
colour code after the highlighted match. -/
theorem create_replacement_test_line :
    (([] : List Char) ++ mkEscape ['3', '1'] ++ "red ".data ++ "error".data ++ [])
        = ("\x1b[31mred error").data ∧
      create_replacement_lambda ("\x1b[31mred error").data 9 "error".data
        = HIGHLIGHT_STYLE ++ "error".data ++ ("\x1b[31m").data := by
  decide

/-- C10: on a POSIX-like host, a device identifier that already begins with
`tty` and is not rooted is given only the `/dev/` prefix, so
`get_serial_port_name "ttyUSB0" = "/dev/ttyUSB0"`, never
`"/dev/ttyttyUSB0"`. -/
theorem get_serial_port_name_tty_only_dev (port : String)
    (htty : strStarts "tty" port = true)
    (hroot : strStarts "/" port = false) :
    get_serial_port_name "posix" port = "/dev/" ++ port := by
  simp [get_serial_port_name, get_serial_prefix, htty, hroot,
    show strDropRight "/dev/tty" 3 = "/dev/" from by decide]

/-- Witness for C10 at the test's input `ttyUSB0`. -/
theorem get_serial_port_name_tty_only_dev_witness :
    strStarts "tty" "ttyUSB0" = true ∧ strStarts "/" "ttyUSB0" = false ∧
      get_serial_port_name "posix" "ttyUSB0" = "/dev/" ++ "ttyUSB0" :=
  ⟨by decide, by decide,
    get_serial_port_name_tty_only_dev "ttyUSB0" (by decide) (by decide)⟩

/-- C2 counterexample: `ttyUSB0` lacks a path separator, yet the resolver
does not prepend the full `/dev/tty` prefix to it — it returns
`/dev/ttyUSB0`, not `/dev/ttyttyUSB0`. -/
theorem get_serial_port_name_not_always_full :
    get_serial_port_name "posix" "ttyUSB0" ≠ "/dev/tty" ++ "ttyUSB0" := by
  decide

/-- C2 (amended): on a POSIX-like host an identifier that is not rooted and
does not already begin with `tty` gets exactly `/dev/tty` prepended; a
rooted identifier is returned unchanged; on a Windows-like host every
identifier not rooted is returned unchanged (and so is a rooted one). -/
theorem get_serial_port_name_spec :
    (∀ port : String, strStarts "/" port = false →
        strStarts "tty" port = false →
        get_serial_port_name "posix" port = "/dev/tty" ++ port) ∧
    (∀ port : String, strStarts "/" port = true →
        get_serial_port_name "posix" port = port) ∧
    (∀ port : String, get_serial_port_name "nt" port = port) := by
  refine ⟨?_, ?_, ?_⟩
  · intro port hroot htty
    simp [get_serial_port_name, get_serial_prefix, hroot, htty]
  · intro port hroot
    simp [get_serial_port_name, hroot]
  · intro port
    by_cases hroot : strStarts "/" port = true
    · simp [get_serial_port_name, hroot]
    · by_cases htty : strStarts "tty" port = true
      · simp [get_serial_port_name, get_serial_prefix,
          eq_false_of_ne_true hroot, htty,
          show strDropRight "" 3 = "" from by decide]
      · simp [get_serial_port_name, get_serial_prefix,
          eq_false_of_ne_true hroot, eq_false_of_ne_true htty]

/-- Witness for C2 (amended) at the test's inputs `ACM0`, `/dev/custom`
and `COM3`. -/
theorem get_serial_port_name_spec_witness :
    get_serial_port_name "posix" "ACM0" = "/dev/tty" ++ "ACM0" ∧
      get_serial_port_name "posix" "/dev/custom" = "/dev/custom" ∧
      get_serial_port_name "nt" "COM3" = "COM3" :=
  ⟨get_serial_port_name_spec.1 "ACM0" (by decide) (by decide),
    get_serial_port_name_spec.2.1 "/dev/custom" (by decide),
    get_serial_port_name_spec.2.2 "COM3"⟩

/-- C3: on the writer path, for an input line without trailing newline the
send routine issues exactly one write to the serial handle, consisting of
the line followed by a single newline terminator, reports success, and —
when a log sink is configured — appends to it exactly once. -/
theorem send_serial_data_single_write (dataLine : String)
    (printTime : Option String) (nowMs : Nat) (localIso : String)
    (hasLog : Bool) (h : dataLine.data.getLast? ≠ some '\n') :
    (send_serial_data none dataLine printTime nowMs localIso hasLog).writes
        = [dataLine ++ "\n"] ∧
      (send_serial_data none dataLine printTime nowMs localIso hasLog).success
        = true ∧
      (hasLog = true →
        (send_serial_data none dataLine printTime nowMs localIso hasLog).logWrites.length
          = 1) := by
  have hstrip := stripTrailingNewline_of_no_newline dataLine h
  refine ⟨?_, rfl, ?_⟩
  · simp [send_serial_data, hstrip]
  · intro hl
    simp [send_serial_data, hl]

/-- Witness for C3 at the test's input `"hello"` with a log sink
configured. -/
theorem send_serial_data_single_write_witness :
    (send_serial_data none "hello" none 0 "" true).writes = ["hello" ++ "\n"] ∧
      (send_serial_data none "hello" none 0 "" true).success = true ∧
      (send_serial_data none "hello" none 0 "" true).logWrites.length = 1 := by
  have h := send_serial_data_single_write "hello" none 0 "" true (by decide)
  exact ⟨h.1, h.2.1, h.2.2 rfl⟩

/-- C4: a transport error raised by the serial handle's write during the
send routine yields a failure result (no exception in the model: the
routine is total and returns `false`) together with a console message
prefixed `Send error`; and at the supervisor a transport loss during an
open session does not terminate the process but re-enters the connect
retry cycle. -/
theorem send_serial_data_error_reported :
    (∀ (msg dataLine : String) (printTime : Option String) (nowMs : Nat)
        (localIso : String) (hasLog : Bool),
      (send_serial_data (some msg) dataLine printTime nowMs localIso hasLog).success
          = false ∧
        (send_serial_data (some msg) dataLine printTime nowMs localIso hasLog).console
          = ["Send error: " ++ msg] ∧
        (send_serial_data (some msg) dataLine printTime nowMs localIso hasLog).logWrites
          = []) ∧
    (∀ (port : String) (rest : List Attempt) (s : Nat),
      run_serial_printing port (.opened .transportLost :: rest) s
        = run_serial_printing port rest s) := by
  constructor
  · intro msg dataLine printTime nowMs localIso hasLog
    exact ⟨rfl, rfl, rfl⟩
  · intro port rest s
    rfl

/-- C5: an empty read is a no-op for the reader loop: it is not printed,
not logged, not counted as an error or connection loss, and the loop
proceeds to the next read exactly as if the empty read had not happened. -/
theorem serial_loop_empty_read_noop :
    ∀ (printTime : Option String) (nowMs : Nat) (localIso : String)
      (hasLog : Bool) (evs : List ReadEvent),
      serial_loop printTime nowMs localIso hasLog (.data "" :: evs)
          = serial_loop printTime nowMs localIso hasLog evs ∧
        serial_loop printTime nowMs localIso hasLog [.data ""]
          = ⟨[], [], false⟩ := by
  intro printTime nowMs localIso hasLog evs
  constructor
  · simp [serial_loop]
  · simp [serial_loop]

/-- C6: a keyboard interrupt observed while the supervisor is waiting or
retrying to open the device — after any number `n` of failed open
attempts, each acknowledged by one spinner wait — terminates the process
with exit code 0, while an unexpected failure during an active session
terminates it with the nonzero exit code 1. -/
theorem run_serial_printing_exit_codes :
    ∀ (port : String) (n s : Nat),
      run_serial_printing port (List.replicate n .openFail ++ [.interrupted]) s
          = ⟨some 0, s + n⟩ ∧
        ∀ msg : String,
          run_serial_printing port
              (List.replicate n .openFail ++ [.opened (.fatal msg)]) s
            = ⟨some 1, s + n⟩ := by
  intro port n
  induction n with
  | zero =>
    intro s
    exact ⟨rfl, fun msg => rfl⟩
  | succ n ih =>
    intro s
    constructor
    · show run_serial_printing port (.openFail :: (List.replicate n .openFail ++ [.interrupted])) s = _
      show run_serial_printing port (List.replicate n .openFail ++ [.interrupted])
          (wait_with_spinner port s) = _
      rw [(ih (wait_with_spinner port s)).1]
      show RunOutcome.mk (some 0) (s + 1 + n) = RunOutcome.mk (some 0) (s + (n + 1))
      rw [show s + 1 + n = s + (n + 1) by omega]
    · intro msg
      show run_serial_printing port
          (.openFail :: (List.replicate n .openFail ++ [.opened (.fatal msg)])) s = _
      show run_serial_printing port (List.replicate n .openFail ++ [.opened (.fatal msg)])
          (wait_with_spinner port s) = _
      rw [(ih (wait_with_spinner port s)).2 msg]
      show RunOutcome.mk (some 1) (s + 1 + n) = RunOutcome.mk (some 1) (s + (n + 1))
      rw [show s + 1 + n = s + (n + 1) by omega]

/-- C9 counterexample: after an exception while reading operator input
(shutdown flag unset), the writer loop reports `Input error` but does not
continue polling — a line that becomes ready immediately after the error
is never forwarded. -/
theorem handle_user_input_error_counterexample :
    (handle_user_input false [.inputError "Read error", .ready "next"]).console
        = ["Input error: Read error"] ∧
      (handle_user_input false [.inputError "Read error", .ready "next"]).sent
        = [] := by
  constructor <;> rfl

/-- C9 (amended): an unexpected exception while the writer loop reads
operator input, with the shutdown flag unset, is reported to the console
with a message containing `Input error`, and the loop then returns cleanly
(without raising) instead of continuing to poll; when the shutdown flag is
set the loop reads nothing at all. -/
theorem handle_user_input_error_exits :
    ∀ (msg : String) (evs : List InputEvent),
      handle_user_input false (.inputError msg :: evs)
          = ⟨[], ["Input error: " ++ msg]⟩ ∧
        handle_user_input true evs = ⟨[], []⟩ := by
  intro msg evs
  exact ⟨rfl, rfl⟩

/-- The resolver coincides with the test table of `test_get_serial_port_name`
on every pinned input. -/
theorem get_serial_port_name_test_table :
    get_serial_port_name "posix" "ACM0" = "/dev/ttyACM0" ∧
      get_serial_port_name "posix" "/dev/custom" = "/dev/custom" ∧
      get_serial_port_name "posix" "ttyUSB0" = "/dev/ttyUSB0" ∧
      get_serial_port_name "posix" "USB0" = "/dev/ttyUSB0" ∧
      get_serial_port_name "nt" "COM3" = "COM3" ∧
      get_serial_prefix "nt" = "" ∧ get_serial_prefix "posix" = "/dev/tty" := by
  decide

/-- C7: at the instant whose epoch value is 1000.0 seconds (1000000 epoch
milliseconds), `epoch` mode yields a string containing `1000.000`, and
`ms` mode yields a string containing `1000000`. -/
theorem add_time_to_line_epoch_ms_1000 :
    "1000.000".data <:+: (add_time_to_line (some "epoch") 1000000 "").data ∧
      "1000000".data <:+: (add_time_to_line (some "ms") 1000000 "").data := by
  constructor
  · exact ⟨"[".data, "] ".data, by decide⟩
  · exact ⟨"[".data, "] ".data, by decide⟩

/-- C8 counterexample: the mode string `dt` lies outside the claimed
recognized set `{epoch, ms, datetime, none}`, yet the formatter does not
return the empty string for it — it renders the local date-time. -/
theorem add_time_to_line_dt_not_empty :
    add_time_to_line (some "dt") 1000000 "2023-01-01 10:00:00.000" ≠ "" := by
  decide

/-- C8 (amended): the recognized mode set is `{epoch, ms, dt, none}` (the
spec's "datetime" mode is spelled `dt`); every mode value outside it —
including the literal string `datetime` — yields the empty string, the
absent mode yields the empty string, and `dt` mode yields a string
containing the local human-readable date-time rendering. -/
theorem add_time_to_line_unknown_empty :
    (∀ (m : String) (nowMs : Nat) (iso : String), m ≠ "epoch" → m ≠ "ms" →
        m ≠ "dt" → add_time_to_line (some m) nowMs iso = "") ∧
    (∀ (nowMs : Nat) (iso : String), add_time_to_line none nowMs iso = "") ∧
    (∀ (nowMs : Nat) (iso : String),
        iso.data <:+: (add_time_to_line (some "dt") nowMs iso).data) := by
  refine ⟨?_, ?_, ?_⟩
  · intro m nowMs iso h1 h2 h3
    simp [add_time_to_line, h1, h2, h3]
  · intro nowMs iso
    rfl
  · intro nowMs iso
    exact ⟨"[".data, "] ".data, by simp [add_time_to_line]⟩

/-- Witness for C8 (amended): the literal mode strings `datetime` and
`invalid` both yield the empty string, and `dt` at the test's instant
contains the date-time rendering. -/
theorem add_time_to_line_unknown_empty_witness :
    add_time_to_line (some "datetime") 1000000 "2023-01-01" = "" ∧
      add_time_to_line (some "invalid") 1000000 "2023-01-01" = "" ∧
      "2023-01-01".data <:+:
        (add_time_to_line (some "dt") 1000000 "2023-01-01").data :=
  ⟨add_time_to_line_unknown_empty.1 "datetime" 1000000 "2023-01-01"
      (by decide) (by decide) (by decide),
    add_time_to_line_unknown_empty.1 "invalid" 1000000 "2023-01-01"
      (by decide) (by decide) (by decide),
    add_time_to_line_unknown_empty.2.2 1000000 "2023-01-01"⟩

end CerealBowl
